import Mathlib

/- Shallow embedding of the ranker leaderboard service, translated from
ranker/scores/services.py, ranker/scores/models.py,
ranker/scores/api/views.py and ranker/games/models.py.

Redis sorted sets are modelled as association lists from member (a user
id; the code stores str(user_id)) to a rational score.  zadd keeps the
list ordered by member so that a set has one canonical representation;
reads sort by score on demand exactly like ZREVRANGE / ZREVRANK.  Scores
are rationals: the only arithmetic the code performs on them is
negation, max and min, all of which IEEE doubles carry out exactly, so
the rational embedding is exact.  ZREVRANGE breaks score ties by member
(Redis uses reverse lexicographic member order; no state considered
below holds a score tie, so the choice is immaterial). -/

namespace Ranker

/- Scoring policy of a game: Game.score_type in ranker/games/models.py,
choices "highest", "lowest", "time". -/
inductive ScoreType where
  | highest
  | lowest
  | time
deriving DecidableEq

/- A Redis sorted set: association list member -> score. -/
abbrev ZSet := List (Nat × ℚ)

/- Association-list lookup, used both for Redis ZSCORE and for the
Python dict in rebuild_leaderboard. -/
def assocGet : ZSet → Nat → Option ℚ
  | [], _ => none
  | (a, b) :: t, m => if a = m then some b else assocGet t m

/- Redis ZADD with a single member: insert or overwrite.  The list is
kept ordered by member, giving each set a canonical representation. -/
def zadd : ZSet → Nat → ℚ → ZSet
  | [], m, x => [(m, x)]
  | (a, b) :: t, m, x =>
    if m < a then (m, x) :: (a, b) :: t
    else if m = a then (m, x) :: t
    else (a, b) :: zadd t m x

/- Redis ZSCORE. -/
def zscore (s : ZSet) (m : Nat) : Option ℚ := assocGet s m

/- Redis ZCARD. -/
def zcard (s : ZSet) : Nat := s.length

/- Insert an entry into a list that is ordered the way ZREVRANGE
returns entries: score descending, ties by member descending. -/
def revInsert (p : Nat × ℚ) : ZSet → ZSet
  | [] => [p]
  | q :: t =>
    if q.2 < p.2 ∨ (q.2 = p.2 ∧ q.1 < p.1) then p :: q :: t
    else q :: revInsert p t

/- The full set in ZREVRANGE order (score descending). -/
def zrevlist (s : ZSet) : ZSet := s.foldr revInsert []

/- Redis ZREVRANGE start stop (both inclusive, 0-indexed). -/
def zrevrange (s : ZSet) (start stop : Nat) : ZSet :=
  ((zrevlist s).drop start).take (stop + 1 - start)

/- Redis ZREVRANK: 0-indexed position in descending-score order. -/
def zrevrank (s : ZSet) (m : Nat) : Option Nat :=
  (zrevlist s).findIdx? (fun p => p.1 == m)

/- A game row: only the fields the modelled operations read. -/
structure Game where
  id : Nat
  score_type : ScoreType
deriving DecidableEq

/- A Score log row (ranker/scores/models.py).  The log list is kept in
queryset iteration order, newest first (Meta.ordering = -submitted_at),
so score submission prepends. -/
structure ScoreRow where
  user : Nat
  game : Nat
  score : ℚ
deriving DecidableEq

/- One row of a leaderboard page.  The username / display-name
decoration read from the User row carries no ranking information and is
omitted; users holds the ids of resolvable User rows. -/
structure Entry where
  rank : Nat
  user_id : Nat
  score : ℚ
deriving DecidableEq

/- Return value of LeaderboardService.get_user_rank. -/
structure RankInfo where
  user_rank : Nat
  user_score : ℚ
  surrounding_players : List Entry
  total_players : Nat
deriving DecidableEq

/- Return value of LeaderboardService.get_user_global_rank. -/
structure GlobalRankInfo where
  user_rank : Nat
  total_score : ℚ
  total_players : Nat
deriving DecidableEq

/- The whole state the service touches: the Game table, the Score log,
the User table (as the list of existing user ids), the per-game Redis
sorted sets and the global Redis sorted set. -/
@[ext]
structure St where
  games : List Game
  log : List ScoreRow
  users : List Nat
  gameIndex : Nat → ZSet
  globalIndex : ZSet

/- Game.objects.get(id=game_id), returning none on DoesNotExist. -/
def getGame (st : St) (gid : Nat) : Option Game :=
  st.games.find? (fun g => g.id == gid)

/- LeaderboardService._convert_score_for_redis. -/
def convert_score_for_redis (score : ℚ) (t : ScoreType) : ℚ :=
  if t = ScoreType.highest then -score else score

/- LeaderboardService._convert_score_from_redis. -/
def convert_score_from_redis (redis_score : ℚ) (t : ScoreType) : ℚ :=
  if t = ScoreType.highest then -redis_score else redis_score

/- LeaderboardService.update_user_score: ZADD the converted score into
the per-game set and ZADD the raw score into the global set. -/
def update_user_score (st : St) (gid uid : Nat) (score : ℚ)
    (t : ScoreType) : St :=
  { st with
    gameIndex := fun g =>
      if g = gid then zadd (st.gameIndex gid) uid (convert_score_for_redis score t)
      else st.gameIndex g,
    globalIndex := zadd st.globalIndex uid score }

/- The row-building loop of get_leaderboard:
for rank, (user_id, redis_score) in enumerate(ranked_users, start+1),
keeping a row only when the user id resolves to a User row. -/
def buildRows (users : List Nat) (t : ScoreType) : Nat → ZSet → List Entry
  | _, [] => []
  | rank, p :: rest =>
    if users.contains p.1 then
      { rank := rank, user_id := p.1,
        score := convert_score_from_redis p.2 t } :: buildRows users t (rank + 1) rest
    else buildRows users t (rank + 1) rest

/- LeaderboardService.get_leaderboard. -/
def get_leaderboard (st : St) (gid start stop : Nat) : List Entry :=
  match getGame st gid with
  | none => []
  | some game =>
    buildRows st.users game.score_type (start + 1)
      (zrevrange (st.gameIndex gid) start stop)

/- LeaderboardService.get_global_leaderboard: same loop over the global
set, no score conversion (the stored value is reported as total_score). -/
def get_global_leaderboard (st : St) (start stop : Nat) : List Entry :=
  buildRows st.users ScoreType.lowest (start + 1)
    (zrevrange st.globalIndex start stop)

/- LeaderboardService.get_user_rank.  start_rank = max(0, rank-5) is
Nat subtraction.  The inner none branch is unreachable: a member with a
ZREVRANK always has a ZSCORE. -/
def get_user_rank (st : St) (gid uid : Nat) : Option RankInfo :=
  match getGame st gid with
  | none => none
  | some game =>
    match zrevrank (st.gameIndex gid) uid with
    | none => none
    | some rank =>
      match zscore (st.gameIndex gid) uid with
      | none => none
      | some redis_score =>
        some { user_rank := rank + 1,
               user_score := convert_score_from_redis redis_score game.score_type,
               surrounding_players := get_leaderboard st gid (rank - 5) (rank + 5),
               total_players := zcard (st.gameIndex gid) }

/- LeaderboardService.get_user_global_rank. -/
def get_user_global_rank (st : St) (uid : Nat) : Option GlobalRankInfo :=
  match zrevrank st.globalIndex uid with
  | none => none
  | some rank =>
    match zscore st.globalIndex uid with
    | none => none
    | some total_score =>
      some { user_rank := rank + 1,
             total_score := total_score,
             total_players := zcard st.globalIndex }

/- LeaderboardService.clear_leaderboard: DEL of the per-game key. -/
def clear_leaderboard (st : St) (gid : Nat) : St :=
  { st with gameIndex := fun g => if g = gid then [] else st.gameIndex g }

/- Python dict item assignment d[u] = x: update in place, else append. -/
def dictSet : List (Nat × ℚ) → Nat → ℚ → List (Nat × ℚ)
  | [], u, x => [(u, x)]
  | (a, b) :: t, u, x =>
    if a = u then (u, x) :: t else (a, b) :: dictSet t u x

/- The keep-better reducer of rebuild_leaderboard: max for highest,
min for lowest and time. -/
def bestOf (t : ScoreType) (c x : ℚ) : ℚ :=
  if t = ScoreType.highest then max c x else min c x

/- One iteration of the user_scores loop in rebuild_leaderboard. -/
def bestStep (t : ScoreType) (acc : List (Nat × ℚ)) (r : ScoreRow) :
    List (Nat × ℚ) :=
  match assocGet acc r.user with
  | none => dictSet acc r.user r.score
  | some cur => dictSet acc r.user (bestOf t cur r.score)

/- The user_scores dict built by rebuild_leaderboard from the score
rows of the game. -/
def user_scores (t : ScoreType) (rows : List ScoreRow) : List (Nat × ℚ) :=
  rows.foldl (bestStep t) []

/- LeaderboardService.rebuild_leaderboard: clear the per-game set, fold
the score log of the game into a per-user best dict, then replay every
entry through update_user_score. -/
def rebuild_leaderboard (st : St) (gid : Nat) : St :=
  match getGame st gid with
  | none => st
  | some game =>
    let rows := st.log.filter (fun r => r.game == gid)
    let us := user_scores game.score_type rows
    us.foldl (fun s p => update_user_score s gid p.1 p.2 game.score_type)
      (clear_leaderboard st gid)

/- Score.get_user_best_score: the best score value among the rows of a
(user, game) pair, none when the pair has no row. -/
def get_user_best_score (st : St) (uid gid : Nat) (t : ScoreType) :
    Option ℚ :=
  match (st.log.filter (fun r => r.user == uid && r.game == gid)).map
      (fun r => r.score) with
  | [] => none
  | x :: rest =>
    some (if t = ScoreType.highest then rest.foldl max x else rest.foldl min x)

/- Return value of ScoreSubmissionView.post. -/
structure SubmitResult where
  score : ℚ
  is_personal_best : Bool
  rank : Option Nat
deriving DecidableEq

/- ScoreSubmissionView.post after validation: create the Score row
(which prepends to the log and triggers update_user_score via
Score.save), fetch the rank, then compute is_personal_best against
get_user_best_score — queried AFTER the create, so the comparison set
already contains the new row. -/
def submit_score (st : St) (uid gid : Nat) (x : ℚ) :
    Option (SubmitResult × St) :=
  match getGame st gid with
  | none => none
  | some game =>
    let st1 : St := { st with log := ⟨uid, gid, x⟩ :: st.log }
    let st2 := update_user_score st1 gid uid x game.score_type
    let rank_info := get_user_rank st2 gid uid
    let previous_best := get_user_best_score st2 uid gid game.score_type
    let is_pb : Bool :=
      match previous_best with
      | some b =>
        if game.score_type = ScoreType.highest then decide (b < x)
        else decide (x < b)
      | none => true
    some ({ score := x, is_personal_best := is_pb,
            rank := rank_info.map (fun r => r.user_rank) }, st2)

/- Specification-side definition, written from the words of the spec
(sections 3 and 4.3): the per-user best normalized key that results
from replaying the score log of a game with keep-best semantics — none
when the user has no record in the game, otherwise the normalized key
of the policy-best raw score among all of that user records.  Used to
compare rebuild_leaderboard against the spec; keep-best folds with max
or min, so the orientation of the log is immaterial. -/
def keepBestKey (t : ScoreType) (rows : List ScoreRow) (u : Nat) : Option ℚ :=
  match (rows.filter (fun r => r.user == u)).map (fun r => r.score) with
  | [] => none
  | x :: rest => some (convert_score_for_redis (rest.foldl (bestOf t) x) t)

/- Proof-layer helper: a sequence of single-member ZADDs, with a score
transformation f applied to each stored value.  update_user_score folds
into this with f = convert and with f = id. -/
def zaddFold (f : ℚ → ℚ) (us : List (Nat × ℚ)) (g : ZSet) : ZSet :=
  us.foldl (fun z p => zadd z p.1 (f p.2)) g

/- Proof-layer helper: the replay loop at the end of
rebuild_leaderboard, folding update_user_score over the dict entries. -/
def updFold (gid : Nat) (t : ScoreType) (us : List (Nat × ℚ)) (s : St) : St :=
  us.foldl (fun st p => update_user_score st gid p.1 p.2 t) s

/- Proof-layer helper: the effect of one user_scores loop iteration on
the value stored for one user. -/
def obest (t : ScoreType) (o : Option ℚ) (x : ℚ) : Option ℚ :=
  some (match o with
        | none => x
        | some c => bestOf t c x)

/- Concrete state for scenario A (claim C1): a HighestWins game 1 where
user 1 submitted 100, user 2 submitted 250 and user 3 submitted 90. -/
def stC1 : St :=
  let st0 : St := ⟨[⟨1, ScoreType.highest⟩], [], [1, 2, 3], fun _ => [], []⟩
  let s1 := update_user_score { st0 with log := ⟨1, 1, 100⟩ :: st0.log }
    1 1 100 ScoreType.highest
  let s2 := update_user_score { s1 with log := ⟨2, 1, 250⟩ :: s1.log }
    1 2 250 ScoreType.highest
  update_user_score { s2 with log := ⟨3, 1, 90⟩ :: s2.log }
    1 3 90 ScoreType.highest

/- Concrete state for scenario D (claim C2): user 1 submitted 100 to
game 1 and then 50 to game 2. -/
def stC2 : St :=
  let st0 : St :=
    ⟨[⟨1, ScoreType.highest⟩, ⟨2, ScoreType.highest⟩], [], [1], fun _ => [], []⟩
  let s1 := update_user_score { st0 with log := ⟨1, 1, 100⟩ :: st0.log }
    1 1 100 ScoreType.highest
  update_user_score { s1 with log := ⟨1, 2, 50⟩ :: s1.log }
    2 1 50 ScoreType.highest

/- Concrete state for claim C3: a HighestWins game 1 with an empty
score log, about to receive a first submission. -/
def stC3 : St := ⟨[⟨1, ScoreType.highest⟩], [], [1], fun _ => [], []⟩

/- Concrete state for scenario B (claim C4): a TimeWins game 1 where
user 1 submitted 12.50 and user 2 submitted 9.75. -/
def stC4 : St :=
  let st0 : St := ⟨[⟨1, ScoreType.time⟩], [], [1, 2], fun _ => [], []⟩
  let s1 := update_user_score { st0 with log := ⟨1, 1, mkRat 25 2⟩ :: st0.log }
    1 1 (mkRat 25 2) ScoreType.time
  update_user_score { s1 with log := ⟨2, 1, mkRat 39 4⟩ :: s1.log }
    1 2 (mkRat 39 4) ScoreType.time

/- Concrete state for claim C5: game 1 has one log record (user 1,
score 10); the global index holds 100 for user 1 (earned across other
games) and 7 for user 2. -/
def stC5 : St :=
  ⟨[⟨1, ScoreType.highest⟩], [⟨1, 1, 10⟩], [1, 2], fun _ => [],
   [(1, 100), (2, 7)]⟩

/- Concrete state for scenario C (claims C6): user 1 submitted 10 and
then 5 to HighestWins game 1, so the live per-game entry was
overwritten down to 5 (stored key -5). -/
def stC6 : St :=
  let st0 : St := ⟨[⟨1, ScoreType.highest⟩], [], [1], fun _ => [], []⟩
  let s1 := update_user_score { st0 with log := ⟨1, 1, 10⟩ :: st0.log }
    1 1 10 ScoreType.highest
  update_user_score { s1 with log := ⟨1, 1, 5⟩ :: s1.log }
    1 1 5 ScoreType.highest

/- Concrete state for claim C9: game 1 with two ranked users. -/
def stC9 : St :=
  let st0 : St := ⟨[⟨1, ScoreType.highest⟩], [], [1, 2], fun _ => [], []⟩
  let s1 := update_user_score { st0 with log := ⟨1, 1, 100⟩ :: st0.log }
    1 1 100 ScoreType.highest
  update_user_score { s1 with log := ⟨2, 1, 60⟩ :: s1.log }
    1 2 60 ScoreType.highest

/- Concrete state for claim C10: HighestWins game 1 with ranked users
1, 2, 3 (scores 100, 90, 80), where user 2 has no User row and is
therefore unresolvable. -/
def stC10 : St :=
  let st0 : St := ⟨[⟨1, ScoreType.highest⟩], [], [1, 3], fun _ => [], []⟩
  let s1 := update_user_score { st0 with log := ⟨1, 1, 100⟩ :: st0.log }
    1 1 100 ScoreType.highest
  let s2 := update_user_score { s1 with log := ⟨2, 1, 90⟩ :: s1.log }
    1 2 90 ScoreType.highest
  update_user_score { s2 with log := ⟨3, 1, 80⟩ :: s2.log }
    1 3 80 ScoreType.highest

theorem assocGet_zadd : ∀ (s : ZSet) (m : Nat) (x : ℚ) (k : Nat),
    assocGet (zadd s m x) k = if k = m then some x else assocGet s k
  | [], m, x, k => by
    simp [zadd, assocGet, eq_comm]
  | (a, b) :: t, m, x, k => by
    have ih := assocGet_zadd t m x k
    simp only [zadd]
    by_cases h1 : m < a
    · simp only [if_pos h1, assocGet, eq_comm]
    · rw [if_neg h1]
      by_cases h2 : m = a
      · rw [if_pos h2]
        subst h2
        by_cases h3 : k = m
        · simp [assocGet, h3]
        · have h3m : ¬m = k := fun hh => h3 hh.symm
          simp [assocGet, h3, h3m]
      · rw [if_neg h2]
        simp only [assocGet, ih]
        by_cases h4 : a = k
        · by_cases h5 : k = m
          · exact absurd (h4.trans h5).symm h2
          · simp [h4, h5]
        · simp [h4]

theorem assocGet_eq_none : ∀ (l : ZSet) (u : Nat),
    u ∉ l.map Prod.fst → assocGet l u = none
  | [], _, _ => rfl
  | (a, b) :: t, u, h => by
    simp only [List.map_cons, List.mem_cons, not_or] at h
    simp only [assocGet, if_neg (Ne.symm h.1)]
    exact assocGet_eq_none t u h.2

theorem zadd_zadd_self (m : Nat) (x : ℚ) :
    ∀ s : ZSet, zadd (zadd s m x) m x = zadd s m x
  | [] => by simp [zadd]
  | (a, b) :: t => by
    have ih := zadd_zadd_self m x t
    simp only [zadd]
    split_ifs <;> simp only [zadd] <;> split_ifs <;>
      first
        | rfl
        | (exfalso; omega)
        | (rw [ih])

theorem zadd_comm_of_ne (a b : Nat) (x y : ℚ) (hab : a ≠ b) :
    ∀ s : ZSet, zadd (zadd s a x) b y = zadd (zadd s b y) a x
  | [] => by
    simp only [zadd]
    split_ifs <;> first
      | rfl
      | (exfalso; omega)
  | (c, w) :: t => by
    have ih := zadd_comm_of_ne a b x y hab t
    simp only [zadd]
    split_ifs <;> simp only [zadd] <;> split_ifs <;>
      first
        | rfl
        | (exfalso; omega)
        | (rw [ih])

theorem length_revInsert (p : Nat × ℚ) :
    ∀ s : ZSet, (revInsert p s).length = s.length + 1
  | [] => rfl
  | q :: t => by
    simp only [revInsert]
    split_ifs <;> simp [length_revInsert p t]

theorem length_zrevlist : ∀ s : ZSet, (zrevlist s).length = s.length
  | [] => rfl
  | p :: t => by
    simp only [zrevlist, List.foldr_cons]
    rw [show t.foldr revInsert [] = zrevlist t from rfl]
    rw [length_revInsert, length_zrevlist t, List.length_cons]

theorem zaddFold_nil (f : ℚ → ℚ) (g : ZSet) : zaddFold f [] g = g := rfl

theorem zaddFold_cons (f : ℚ → ℚ) (p : Nat × ℚ) (us : List (Nat × ℚ))
    (g : ZSet) : zaddFold f (p :: us) g = zaddFold f us (zadd g p.1 (f p.2)) :=
  rfl

theorem zscore_zaddFold_of_ne (f : ℚ → ℚ) :
    ∀ (us : List (Nat × ℚ)) (g : ZSet) (u : Nat),
    (∀ p ∈ us, p.1 ≠ u) → zscore (zaddFold f us g) u = zscore g u
  | [], _, _, _ => rfl
  | p :: us, g, u, h => by
    rw [zaddFold_cons,
      zscore_zaddFold_of_ne f us _ u (fun q hq => h q (List.mem_cons_of_mem p hq))]
    unfold zscore
    rw [assocGet_zadd, if_neg (fun hh => h p (List.mem_cons_self p us) hh.symm)]

theorem zaddFold_zadd_comm (f : ℚ → ℚ) :
    ∀ (us : List (Nat × ℚ)) (g : ZSet) (a : Nat) (x : ℚ),
    (∀ p ∈ us, p.1 ≠ a) →
    zaddFold f us (zadd g a x) = zadd (zaddFold f us g) a x
  | [], _, _, _, _ => rfl
  | p :: us, g, a, x, h => by
    have hp : p.1 ≠ a := h p (List.mem_cons_self p us)
    rw [zaddFold_cons, zaddFold_cons,
      zadd_comm_of_ne a p.1 x (f p.2) (Ne.symm hp) g,
      zaddFold_zadd_comm f us _ a x (fun q hq => h q (List.mem_cons_of_mem p hq))]

theorem zaddFold_idem (f : ℚ → ℚ) :
    ∀ (us : List (Nat × ℚ)) (g : ZSet), (us.map Prod.fst).Nodup →
    zaddFold f us (zaddFold f us g) = zaddFold f us g
  | [], _, _ => rfl
  | p :: us, g, h => by
    simp only [List.map_cons, List.nodup_cons, List.mem_map] at h
    have hp : ∀ q ∈ us, q.1 ≠ p.1 := by
      intro q hq hqp
      exact h.1 ⟨q, hq, hqp⟩
    rw [zaddFold_cons, zaddFold_cons,
      ← zaddFold_zadd_comm f us (zadd g p.1 (f p.2)) p.1 (f p.2) hp,
      zadd_zadd_self, zaddFold_idem f us _ h.2]

theorem zscore_zaddFold_nodup (f : ℚ → ℚ) :
    ∀ (us : List (Nat × ℚ)) (g : ZSet) (u : Nat), (us.map Prod.fst).Nodup →
    zscore (zaddFold f us g) u =
      (assocGet us u).elim (zscore g u) (fun v => some (f v))
  | [], _, _, _ => rfl
  | p :: us, g, u, h => by
    simp only [List.map_cons, List.nodup_cons, List.mem_map] at h
    rw [zaddFold_cons, zscore_zaddFold_nodup f us _ u h.2]
    by_cases hu : u = p.1
    · have hnone : assocGet us u = none := by
        apply assocGet_eq_none
        intro hmem
        rcases List.mem_map.1 hmem with ⟨q, hq, hq1⟩
        exact h.1 ⟨q, hq, by rw [hq1, hu]⟩
      have hcons : assocGet (p :: us) u = some p.2 := by
        cases p with
        | mk a b => exact if_pos hu.symm
      rw [hnone, hcons]
      show zscore (zadd g p.1 (f p.2)) u = some (f p.2)
      unfold zscore
      rw [assocGet_zadd, if_pos hu]
    · have hcons : assocGet (p :: us) u = assocGet us u := by
        cases p with
        | mk a b => exact if_neg (fun hh => hu hh.symm)
      rw [hcons]
      cases hget : assocGet us u with
      | some v => rfl
      | none =>
        show zscore (zadd g p.1 (f p.2)) u = zscore g u
        unfold zscore
        rw [assocGet_zadd, if_neg hu]

theorem assocGet_dictSet : ∀ (l : List (Nat × ℚ)) (u : Nat) (x : ℚ) (k : Nat),
    assocGet (dictSet l u x) k = if k = u then some x else assocGet l k
  | [], u, x, k => by
    simp [dictSet, assocGet, eq_comm]
  | (a, b) :: t, u, x, k => by
    have ih := assocGet_dictSet t u x k
    simp only [dictSet]
    by_cases h1 : a = u
    · subst h1
      by_cases h2 : k = a
      · simp [assocGet, h2]
      · have h2a : ¬a = k := fun hh => h2 hh.symm
        simp [assocGet, h2, h2a]
    · rw [if_neg h1]
      simp only [assocGet, ih]
      by_cases h2 : a = k
      · subst h2
        rw [if_pos rfl, if_neg (fun hh : a = u => h1 hh), if_pos rfl]
      · rw [if_neg h2, if_neg h2]

theorem keys_dictSet : ∀ (l : List (Nat × ℚ)) (u : Nat) (x : ℚ),
    (dictSet l u x).map Prod.fst =
      if u ∈ l.map Prod.fst then l.map Prod.fst else l.map Prod.fst ++ [u]
  | [], u, x => by simp [dictSet]
  | (a, b) :: t, u, x => by
    simp only [dictSet]
    by_cases h1 : a = u
    · subst h1
      simp
    · rw [if_neg h1]
      have h1u : ¬u = a := fun hh => h1 hh.symm
      simp only [List.map_cons, List.mem_cons, h1u, false_or]
      rw [keys_dictSet t u x]
      by_cases h2 : u ∈ t.map Prod.fst
      · simp [h2]
      · simp [h2]

theorem nodup_keys_dictSet (l : List (Nat × ℚ)) (u : Nat) (x : ℚ)
    (h : (l.map Prod.fst).Nodup) : ((dictSet l u x).map Prod.fst).Nodup := by
  rw [keys_dictSet]
  by_cases h2 : u ∈ l.map Prod.fst
  · rwa [if_pos h2]
  · rw [if_neg h2]
    simp [List.nodup_append, h, h2]

theorem mem_keys_dictSet (l : List (Nat × ℚ)) (u : Nat) (x : ℚ) (q : Nat)
    (h : q ∈ (dictSet l u x).map Prod.fst) : q ∈ l.map Prod.fst ∨ q = u := by
  rw [keys_dictSet] at h
  by_cases h2 : u ∈ l.map Prod.fst
  · rw [if_pos h2] at h
    exact Or.inl h
  · rw [if_neg h2] at h
    rcases List.mem_append.1 h with h3 | h3
    · exact Or.inl h3
    · exact Or.inr (List.mem_singleton.1 h3)

theorem bestStep_eq_dictSet (t : ScoreType) (acc : List (Nat × ℚ))
    (r : ScoreRow) :
    bestStep t acc r =
      dictSet acc r.user
        ((assocGet acc r.user).elim r.score (fun c => bestOf t c r.score)) := by
  unfold bestStep
  cases assocGet acc r.user <;> rfl

theorem nodup_keys_foldl_bestStep (t : ScoreType) :
    ∀ (rows : List ScoreRow) (acc : List (Nat × ℚ)),
    (acc.map Prod.fst).Nodup → ((rows.foldl (bestStep t) acc).map Prod.fst).Nodup
  | [], _, h => h
  | r :: rows, acc, h => by
    rw [List.foldl_cons]
    apply nodup_keys_foldl_bestStep t rows
    rw [bestStep_eq_dictSet]
    exact nodup_keys_dictSet _ _ _ h

theorem mem_keys_foldl_bestStep (t : ScoreType) :
    ∀ (rows : List ScoreRow) (acc : List (Nat × ℚ)) (q : Nat),
    q ∈ ((rows.foldl (bestStep t) acc).map Prod.fst) →
    q ∈ acc.map Prod.fst ∨ ∃ r ∈ rows, r.user = q
  | [], _, _, h => Or.inl h
  | r :: rows, acc, q, h => by
    rw [List.foldl_cons] at h
    rcases mem_keys_foldl_bestStep t rows _ q h with h1 | h1
    · rw [bestStep_eq_dictSet] at h1
      rcases mem_keys_dictSet _ _ _ _ h1 with h2 | h2
      · exact Or.inl h2
      · exact Or.inr ⟨r, List.mem_cons_self r rows, h2.symm⟩
    · rcases h1 with ⟨r2, hr2, hr2q⟩
      exact Or.inr ⟨r2, List.mem_cons_of_mem r hr2, hr2q⟩

theorem assocGet_foldl_bestStep (t : ScoreType) :
    ∀ (rows : List ScoreRow) (acc : List (Nat × ℚ)) (u : Nat),
    assocGet (rows.foldl (bestStep t) acc) u =
      ((rows.filter (fun r => r.user == u)).map (fun r => r.score)).foldl
        (obest t) (assocGet acc u)
  | [], _, _ => rfl
  | r :: rows, acc, u => by
    rw [List.foldl_cons, assocGet_foldl_bestStep t rows _ u]
    by_cases hu : r.user = u
    · rw [List.filter_cons_of_pos (by simpa using hu), List.map_cons,
        List.foldl_cons]
      have hstep : assocGet (bestStep t acc r) u =
          obest t (assocGet acc u) r.score := by
        rw [bestStep_eq_dictSet, assocGet_dictSet, if_pos hu.symm]
        subst hu
        cases assocGet acc r.user <;> rfl
      rw [hstep]
    · rw [List.filter_cons_of_neg (by simpa using hu)]
      have hstep : assocGet (bestStep t acc r) u = assocGet acc u := by
        rw [bestStep_eq_dictSet, assocGet_dictSet,
          if_neg (fun hh => hu hh.symm)]
      rw [hstep]

theorem foldl_obest_some (t : ScoreType) :
    ∀ (xs : List ℚ) (a : ℚ),
    xs.foldl (obest t) (some a) = some (xs.foldl (bestOf t) a)
  | [], _ => rfl
  | x :: xs, a => by
    rw [List.foldl_cons, List.foldl_cons]
    exact foldl_obest_some t xs (bestOf t a x)

theorem updFold_games (gid : Nat) (t : ScoreType) :
    ∀ (us : List (Nat × ℚ)) (s : St), (updFold gid t us s).games = s.games
  | [], _ => rfl
  | p :: us, s => updFold_games gid t us _

theorem updFold_log (gid : Nat) (t : ScoreType) :
    ∀ (us : List (Nat × ℚ)) (s : St), (updFold gid t us s).log = s.log
  | [], _ => rfl
  | p :: us, s => updFold_log gid t us _

theorem updFold_users (gid : Nat) (t : ScoreType) :
    ∀ (us : List (Nat × ℚ)) (s : St), (updFold gid t us s).users = s.users
  | [], _ => rfl
  | p :: us, s => updFold_users gid t us _

theorem updFold_gameIndex_self (gid : Nat) (t : ScoreType) :
    ∀ (us : List (Nat × ℚ)) (s : St),
    (updFold gid t us s).gameIndex gid =
      zaddFold (fun x => convert_score_for_redis x t) us (s.gameIndex gid)
  | [], _ => rfl
  | p :: us, s => by
    rw [show updFold gid t (p :: us) s =
        updFold gid t us (update_user_score s gid p.1 p.2 t) from rfl,
      updFold_gameIndex_self gid t us _, zaddFold_cons]
    congr 1
    simp [update_user_score]

theorem updFold_gameIndex_ne (gid : Nat) (t : ScoreType) (g : Nat)
    (hne : g ≠ gid) :
    ∀ (us : List (Nat × ℚ)) (s : St),
    (updFold gid t us s).gameIndex g = s.gameIndex g
  | [], _ => rfl
  | p :: us, s => by
    rw [show updFold gid t (p :: us) s =
        updFold gid t us (update_user_score s gid p.1 p.2 t) from rfl,
      updFold_gameIndex_ne gid t g hne us _]
    simp [update_user_score, hne]

theorem updFold_globalIndex (gid : Nat) (t : ScoreType) :
    ∀ (us : List (Nat × ℚ)) (s : St),
    (updFold gid t us s).globalIndex = zaddFold (fun x => x) us s.globalIndex
  | [], _ => rfl
  | p :: us, s => by
    rw [show updFold gid t (p :: us) s =
        updFold gid t us (update_user_score s gid p.1 p.2 t) from rfl,
      updFold_globalIndex gid t us _, zaddFold_cons]
    rfl

theorem rebuild_eq (st : St) (gid : Nat) (game : Game)
    (hg : getGame st gid = some game) :
    rebuild_leaderboard st gid =
      updFold gid game.score_type
        (user_scores game.score_type (st.log.filter (fun r => r.game == gid)))
        (clear_leaderboard st gid) := by
  unfold rebuild_leaderboard
  rw [hg]
  rfl

theorem rebuild_none (st : St) (gid : Nat) (hg : getGame st gid = none) :
    rebuild_leaderboard st gid = st := by
  unfold rebuild_leaderboard
  rw [hg]

theorem mem_buildRows (users : List Nat) (t : ScoreType) :
    ∀ (l : ZSet) (r0 : Nat) (e : Entry), e ∈ buildRows users t r0 l →
    users.contains e.user_id = true ∧
    ∃ i, ∃ h : i < l.length,
      (l.get ⟨i, h⟩).1 = e.user_id ∧
      e.score = convert_score_from_redis (l.get ⟨i, h⟩).2 t ∧
      e.rank = r0 + i
  | [], _, _, h => absurd h (List.not_mem_nil _)
  | p :: rest, r0, e, h => by
    simp only [buildRows] at h
    by_cases hc : users.contains p.1 = true
    · rw [if_pos hc] at h
      rcases List.mem_cons.1 h with he | he
      · subst he
        exact ⟨hc, 0, Nat.succ_pos _, rfl, rfl, rfl⟩
      · rcases mem_buildRows users t rest (r0 + 1) e he with ⟨h1, i, hi, h2, h3, h4⟩
        exact ⟨h1, i + 1, Nat.succ_lt_succ hi, h2, h3, by omega⟩
    · rw [if_neg hc] at h
      rcases mem_buildRows users t rest (r0 + 1) e h with ⟨h1, i, hi, h2, h3, h4⟩
      exact ⟨h1, i + 1, Nat.succ_lt_succ hi, h2, h3, by omega⟩

theorem buildRows_mem (users : List Nat) (t : ScoreType) :
    ∀ (l : ZSet) (r0 i : Nat) (h : i < l.length),
    users.contains (l.get ⟨i, h⟩).1 = true →
    (⟨r0 + i, (l.get ⟨i, h⟩).1,
      convert_score_from_redis (l.get ⟨i, h⟩).2 t⟩ : Entry)
      ∈ buildRows users t r0 l
  | [], _, i, h, _ => absurd h (by simp)
  | p :: rest, r0, 0, h, hc => by
    simp only [buildRows]
    rw [if_pos (show users.contains p.1 = true from hc)]
    exact List.mem_cons_self _ _
  | p :: rest, r0, i + 1, h, hc => by
    simp only [buildRows]
    have heq : r0 + (i + 1) = r0 + 1 + i := by omega
    rw [heq]
    have hmem := buildRows_mem users t rest (r0 + 1) i
      (Nat.lt_of_succ_lt_succ h) hc
    by_cases hcp : users.contains p.1 = true
    · rw [if_pos hcp]
      exact List.mem_cons_of_mem _ hmem
    · rw [if_neg hcp]
      exact hmem

/-- Claim C1 (code_bug): for the HighestWins game of scenario A (user 1
submitted 100, user 2 submitted 250, user 3 submitted 90) the code does
NOT return the best-first page U2, U1, U3 claimed by the spec: because
highest scores are stored negated while the page is read with
ZREVRANGE, get_leaderboard returns the worst score first — user 3 (90)
at rank 1, user 1 (100) at rank 2 and user 2 (250) at rank 3. -/
theorem c1_highest_page_is_worst_first :
    get_leaderboard stC1 1 0 2 =
      [⟨1, 3, 90⟩, ⟨2, 1, 100⟩, ⟨3, 2, 250⟩] := by decide

/-- Claim C2 (code_bug): the global index is written with a plain ZADD,
which overwrites: after user 1 submits 100 to game 1 and then 50 to
game 2, the stored global value and the total_score reported by
get_user_global_rank are 50, the raw score of the latest submission,
not the cumulative sum 150 of all submitted scores. -/
theorem c2_global_score_overwritten_not_summed :
    stC2.log.map (fun r => r.score) = [50, 100] ∧
    (50 : ℚ) + 100 = 150 ∧
    zscore stC2.globalIndex 1 = some 50 ∧
    (get_user_global_rank stC2 1).map (fun r => r.total_score) = some 50 ∧
    (50 : ℚ) ≠ 150 :=
  ⟨by decide, by norm_num, by decide, by decide, by decide⟩

/-- Claim C3 (code_bug): submit_score creates the Score row before it
queries the best record, so the "previous best" already contains the
new submission and the strict comparison always fails: the very first
submission of a user is reported with is_personal_best = false (the
claim requires true when no prior record exists), and even a strictly
better second submission is reported false. -/
theorem c3_personal_best_always_false :
    (submit_score stC3 1 1 100).map (fun p => p.1.is_personal_best) =
      some false ∧
    ((submit_score stC3 1 1 100).bind (fun p => submit_score p.2 1 1 200)).map
      (fun p => p.1.is_personal_best) = some false :=
  ⟨by decide, by decide⟩

/-- Claim C4 (code_bug): in the TimeWins game of scenario B (user 1
submitted 12.50, user 2 submitted 9.75) the code reports user 1 —
the SLOWER time — at rank 1 and user 2 at rank 2, because times are
stored raw but ranked with ZREVRANK (descending); the claim requires
rank 2 for user 1. -/
theorem c4_timewins_slower_time_ranks_first :
    (get_user_rank stC4 1 1).map (fun r => r.user_rank) = some 1 ∧
    (get_user_rank stC4 1 2).map (fun r => r.user_rank) = some 2 :=
  ⟨by decide, by decide⟩

/-- Claim C5, counterexample: rebuild_leaderboard does touch the global
index.  In stC5 user 1 holds global score 100 and game 1 has one log
record for user 1 with score 10; after rebuild_leaderboard of game 1
the global entry of user 1 has been overwritten to 10. -/
theorem c5_rebuild_overwrites_global_counterexample :
    zscore stC5.globalIndex 1 = some 100 ∧
    zscore (rebuild_leaderboard stC5 1).globalIndex 1 = some 10 :=
  ⟨by decide, by decide⟩

/-- Claim C5, amended: rebuild_leaderboard replays every per-user best
through update_user_score, which also ZADDs the global index, so
global entries of users with a log record in the rebuilt game are
overwritten; the global entry of every user with NO log record in the
rebuilt game is unchanged. -/
theorem c5_rebuild_preserves_global_for_nonparticipants
    (st : St) (gid u : Nat)
    (h : ∀ r ∈ st.log, r.game = gid → r.user ≠ u) :
    zscore (rebuild_leaderboard st gid).globalIndex u =
      zscore st.globalIndex u := by
  cases hg : getGame st gid with
  | none => rw [rebuild_none st gid hg]
  | some game =>
    rw [rebuild_eq st gid game hg, updFold_globalIndex]
    have hclear : (clear_leaderboard st gid).globalIndex = st.globalIndex := rfl
    rw [hclear]
    apply zscore_zaddFold_of_ne
    intro p hp hpu
    have hkey : p.1 ∈ (user_scores game.score_type
        (st.log.filter (fun r => r.game == gid))).map Prod.fst :=
      List.mem_map.2 ⟨p, hp, rfl⟩
    rcases mem_keys_foldl_bestStep game.score_type _ [] p.1 hkey with h1 | h1
    · simp at h1
    · rcases h1 with ⟨r, hr, hru⟩
      rcases List.mem_filter.1 hr with ⟨hrlog, hrg⟩
      exact h r hrlog (by simpa using hrg) (hru.trans hpu)

/-- Claim C5, witness: in stC5 user 2 has no record in game 1, and the
rebuild indeed leaves the global entry of user 2 at 7. -/
theorem c5_rebuild_global_frame_witness :
    zscore (rebuild_leaderboard stC5 1).globalIndex 2 =
      zscore stC5.globalIndex 2 ∧
    zscore stC5.globalIndex 2 = some 7 :=
  ⟨c5_rebuild_preserves_global_for_nonparticipants stC5 1 2 (by decide),
   by decide⟩

/-- Claim C6 (confirmed): for every state and every existing game, the
per-game index produced by rebuild_leaderboard agrees entry-by-entry
(same member set, same per-user stored key) with keepBestKey, the
spec-side keep-best replay of the score log of the game — independent
of whatever the live, overwrite-updated index held before. -/
theorem c6_rebuild_equals_keep_best_replay (st : St) (gid : Nat)
    (game : Game) (hg : getGame st gid = some game) (u : Nat) :
    zscore ((rebuild_leaderboard st gid).gameIndex gid) u =
      keepBestKey game.score_type
        (st.log.filter (fun r => r.game == gid)) u := by
  rw [rebuild_eq st gid game hg, updFold_gameIndex_self]
  have hclear : (clear_leaderboard st gid).gameIndex gid = [] := by
    simp [clear_leaderboard]
  rw [hclear]
  rw [zscore_zaddFold_nodup _ _ _ _
    (show ((user_scores game.score_type
        (st.log.filter (fun r => r.game == gid))).map Prod.fst).Nodup from
      nodup_keys_foldl_bestStep game.score_type _ [] List.nodup_nil)]
  rw [show assocGet (user_scores game.score_type
        (st.log.filter (fun r => r.game == gid))) u =
      (((st.log.filter (fun r => r.game == gid)).filter
          (fun r => r.user == u)).map (fun r => r.score)).foldl
        (obest game.score_type) none
    from assocGet_foldl_bestStep game.score_type _ [] u]
  unfold keepBestKey
  generalize ((st.log.filter (fun r => r.game == gid)).filter
      (fun r => r.user == u)).map (fun r => r.score) = xs
  cases xs with
  | nil => rfl
  | cons x rest =>
    rw [List.foldl_cons,
      show obest game.score_type none x = some x from rfl,
      foldl_obest_some]
    rfl

/-- Claim C6, witness, scenario C: user 1 submitted 10 and then 5 to
HighestWins game 1; the live index was overwritten down to 5 (stored
key -5), and rebuild_leaderboard restores the keep-best entry 10
(stored key -10), exactly the keep-best replay of the log. -/
theorem c6_rebuild_keep_best_witness :
    zscore ((rebuild_leaderboard stC6 1).gameIndex 1) 1 =
      keepBestKey ScoreType.highest
        (stC6.log.filter (fun r => r.game == 1)) 1 ∧
    zscore (stC6.gameIndex 1) 1 = some (-5) ∧
    zscore ((rebuild_leaderboard stC6 1).gameIndex 1) 1 = some (-10) ∧
    keepBestKey ScoreType.highest
      (stC6.log.filter (fun r => r.game == 1)) 1 = some (-10) :=
  ⟨c6_rebuild_equals_keep_best_replay stC6 1 ⟨1, ScoreType.highest⟩
      (by decide) 1,
   by decide, by decide, by decide⟩

/-- Claim C7 (confirmed): score normalization round-trips exactly — for
every policy and every non-negative rational score with at most two
decimal places, converting to the stored key and back yields the score
unchanged (the conversion is negation or the identity, both exact). -/
theorem c7_normalize_roundtrip_exact (t : ScoreType) (x : ℚ)
    (h0 : 0 ≤ x) (h2 : ∃ n : Nat, x = mkRat n 100) :
    convert_score_from_redis (convert_score_for_redis x t) t = x := by
  cases t <;> simp [convert_score_for_redis, convert_score_from_redis]

/-- Claim C7, witness: the round trip at score 12.45 under the
HighestWins policy. -/
theorem c7_roundtrip_witness :
    (0 ≤ mkRat 1245 100) ∧
    (∃ n : Nat, (mkRat 1245 100 : ℚ) = mkRat n 100) ∧
    convert_score_from_redis
      (convert_score_for_redis (mkRat 1245 100) ScoreType.highest)
      ScoreType.highest = mkRat 1245 100 :=
  ⟨by decide, ⟨1245, rfl⟩,
   c7_normalize_roundtrip_exact ScoreType.highest (mkRat 1245 100)
     (by decide) ⟨1245, rfl⟩⟩

/-- Claim C8 (confirmed): rebuild_leaderboard is idempotent — for every
state and game id, running it twice with no intervening submissions
leaves the whole store (per-game indices, global index, tables) in a
state identical to running it once. -/
theorem c8_rebuild_idempotent (st : St) (gid : Nat) :
    rebuild_leaderboard (rebuild_leaderboard st gid) gid =
      rebuild_leaderboard st gid := by
  cases hg : getGame st gid with
  | none => rw [rebuild_none st gid hg, rebuild_none st gid hg]
  | some game =>
    have h1 := rebuild_eq st gid game hg
    set rows := st.log.filter (fun r => r.game == gid) with hrows
    set us := user_scores game.score_type rows with hus
    set A := rebuild_leaderboard st gid with hA
    have hnd : (us.map Prod.fst).Nodup :=
      nodup_keys_foldl_bestStep game.score_type rows [] List.nodup_nil
    have hAgames : A.games = st.games := by
      rw [h1, updFold_games]
      rfl
    have hAlog : A.log = st.log := by
      rw [h1, updFold_log]
      rfl
    have hAusers : A.users = st.users := by
      rw [h1, updFold_users]
      rfl
    have hAgi : A.gameIndex gid =
        zaddFold (fun x => convert_score_for_redis x game.score_type) us [] := by
      rw [h1, updFold_gameIndex_self]
      congr 1
      simp [clear_leaderboard]
    have hAgne : ∀ g, g ≠ gid → A.gameIndex g = st.gameIndex g := by
      intro g hgne
      rw [h1, updFold_gameIndex_ne gid game.score_type g hgne]
      simp [clear_leaderboard, hgne]
    have hAglob : A.globalIndex = zaddFold (fun x => x) us st.globalIndex := by
      rw [h1, updFold_globalIndex]
      rfl
    have hgA : getGame A gid = some game := by
      unfold getGame
      rw [hAgames]
      exact hg
    have h2 := rebuild_eq A gid game hgA
    rw [show A.log.filter (fun r => r.game == gid) = rows by
      rw [hAlog]] at h2
    rw [← hus] at h2
    rw [h2]
    apply St.ext
    · rw [updFold_games]
      rfl
    · rw [updFold_log]
      rfl
    · rw [updFold_users]
      rfl
    · funext g
      by_cases hgid : g = gid
      · subst hgid
        rw [updFold_gameIndex_self, hAgi]
        congr 1
        simp [clear_leaderboard]
      · rw [updFold_gameIndex_ne gid game.score_type g hgid]
        simp [clear_leaderboard, hgid]
    · rw [updFold_globalIndex]
      have hcg : (clear_leaderboard A gid).globalIndex = A.globalIndex := rfl
      rw [hcg, hAglob, zaddFold_idem (fun x => x) us st.globalIndex hnd]

/-- Claim C9 (confirmed): window queries degrade to empty results and
never to errors — get_leaderboard returns the empty list when the
window is inverted (start greater than end), when start is at or
beyond the index cardinality, or when the game does not exist, and
get_user_rank returns none for a nonexistent game or an unranked
user. -/
theorem c9_window_degrades_to_empty (st : St) (gid uid start stop : Nat) :
    (stop < start → get_leaderboard st gid start stop = []) ∧
    (zcard (st.gameIndex gid) ≤ start →
      get_leaderboard st gid start stop = []) ∧
    (getGame st gid = none →
      get_leaderboard st gid start stop = [] ∧
      get_user_rank st gid uid = none) ∧
    (zrevrank (st.gameIndex gid) uid = none →
      get_user_rank st gid uid = none) := by
  refine ⟨?_, ?_, ?_, ?_⟩
  · intro hlt
    have hempty : zrevrange (st.gameIndex gid) start stop = [] := by
      unfold zrevrange
      rw [Nat.sub_eq_zero_of_le (by omega)]
      exact List.take_zero _
    cases hgame : getGame st gid with
    | none => simp only [get_leaderboard, hgame]
    | some game =>
      simp only [get_leaderboard, hgame, hempty]
      rfl
  · intro hle
    have hdrop : (zrevlist (st.gameIndex gid)).drop start = [] := by
      apply List.drop_eq_nil_of_le
      rw [length_zrevlist]
      exact hle
    have hempty : zrevrange (st.gameIndex gid) start stop = [] := by
      unfold zrevrange
      rw [hdrop]
      exact List.take_nil
    cases hgame : getGame st gid with
    | none => simp only [get_leaderboard, hgame]
    | some game =>
      simp only [get_leaderboard, hgame, hempty]
      rfl
  · intro hg
    exact ⟨by simp only [get_leaderboard, hg], by simp only [get_user_rank, hg]⟩
  · intro hr
    cases hgame : getGame st gid with
    | none => simp only [get_user_rank, hgame]
    | some game => simp only [get_user_rank, hgame, hr]

/-- Claim C9, witness: in the two-player game of stC9, an inverted
window, a window starting past the cardinality, a nonexistent game id
and an unranked user id all yield empty or absent results. -/
theorem c9_window_empty_witness :
    get_leaderboard stC9 1 5 3 = [] ∧
    get_leaderboard stC9 1 10 20 = [] ∧
    get_leaderboard stC9 99 0 5 = [] ∧
    get_user_rank stC9 99 1 = none ∧
    get_user_rank stC9 1 42 = none :=
  ⟨(c9_window_degrades_to_empty stC9 1 1 5 3).1 (by decide),
   (c9_window_degrades_to_empty stC9 1 1 10 20).2.1 (by decide),
   ((c9_window_degrades_to_empty stC9 99 1 0 5).2.2.1 (by decide)).1,
   ((c9_window_degrades_to_empty stC9 99 1 0 5).2.2.1 (by decide)).2,
   (c9_window_degrades_to_empty stC9 1 42 0 0).2.2.2 (by decide)⟩

/-- Claim C10 (confirmed, implicit): in every page that get_leaderboard
returns, each emitted row carries rank start + 1 + i where i is the
0-based position of that row in the raw ZREVRANGE window — ranks are
assigned before unresolvable users are filtered out — and conversely
every raw window position whose user id resolves appears as a row with
exactly that rank, so dropping an unresolvable user leaves the
remaining ranks unchanged and the page non-consecutive. -/
theorem c10_rank_assigned_before_filtering (st : St) (gid start stop : Nat)
    (game : Game) (hg : getGame st gid = some game) :
    (∀ e ∈ get_leaderboard st gid start stop,
      st.users.contains e.user_id = true ∧
      ∃ i, ∃ h : i < (zrevrange (st.gameIndex gid) start stop).length,
        ((zrevrange (st.gameIndex gid) start stop).get ⟨i, h⟩).1 = e.user_id ∧
        e.score = convert_score_from_redis
          ((zrevrange (st.gameIndex gid) start stop).get ⟨i, h⟩).2
          game.score_type ∧
        e.rank = start + 1 + i) ∧
    (∀ (i : Nat) (h : i < (zrevrange (st.gameIndex gid) start stop).length),
      st.users.contains
        ((zrevrange (st.gameIndex gid) start stop).get ⟨i, h⟩).1 = true →
      (⟨start + 1 + i,
        ((zrevrange (st.gameIndex gid) start stop).get ⟨i, h⟩).1,
        convert_score_from_redis
          ((zrevrange (st.gameIndex gid) start stop).get ⟨i, h⟩).2
          game.score_type⟩ : Entry)
        ∈ get_leaderboard st gid start stop) := by
  have hun : get_leaderboard st gid start stop =
      buildRows st.users game.score_type (start + 1)
        (zrevrange (st.gameIndex gid) start stop) := by
    simp only [get_leaderboard, hg]
  constructor
  · intro e he
    rw [hun] at he
    rcases mem_buildRows st.users game.score_type _ _ e he with
      ⟨h1, i, hi, h2, h3, h4⟩
    exact ⟨h1, i, hi, h2, h3, h4⟩
  · intro i h hc
    rw [hun]
    exact buildRows_mem st.users game.score_type _ (start + 1) i h hc

/-- Claim C10, witness: in stC10 the raw window lists users 3, 2, 1
(ZREVRANGE order of the stored keys), but user 2 has no User row: the
returned page keeps ranks 1 and 3 and skips rank 2, and every returned
row satisfies the rank-from-raw-position property. -/
theorem c10_rank_gap_witness :
    get_leaderboard stC10 1 0 2 = [⟨1, 3, 80⟩, ⟨3, 1, 100⟩] ∧
    (∀ e ∈ get_leaderboard stC10 1 0 2,
      stC10.users.contains e.user_id = true ∧
      ∃ i, ∃ h : i < (zrevrange (stC10.gameIndex 1) 0 2).length,
        ((zrevrange (stC10.gameIndex 1) 0 2).get ⟨i, h⟩).1 = e.user_id ∧
        e.score = convert_score_from_redis
          ((zrevrange (stC10.gameIndex 1) 0 2).get ⟨i, h⟩).2
          ScoreType.highest ∧
        e.rank = 0 + 1 + i) :=
  ⟨by decide,
   (c10_rank_assigned_before_filtering stC10 1 0 2 ⟨1, ScoreType.highest⟩
     (by decide)).1⟩

end Ranker
